import Mathlib

/-!
Verification of `generate_checklist.py` (checklists_generator).

Shallow embedding of the script's pure cores:
* configuration merging (`set_run_parameters`, lines 117-150),
* identifier validation (`validate_project_id`, `validate_flowcell_id`),
* basename derivation,
* placeholder substitution (`parse_line`), header building
  (`prepare_markdown_header`),
* the overwrite-protection gate of `__main__`,
* the markdown normalization pass of `generate_markdown_output`,
* the `*.md` deletion pass of `cleanup_temporary_data`.

Strings are modelled as Lean `String`/`List Char`; Python `re.sub` with a
literal pattern and a literal replacement is modelled by `replaceAll`
(leftmost, non-overlapping, all occurrences); Python truthiness of an
optional string is `truthy`; Python `re.match` of an `^...$` pattern is
modelled including CPython's rule that `$` also matches just before one
trailing newline (`dollarMatch`).
-/

namespace Checklists

/-- Python truthiness of an optional string: `None` and `""` are falsy. -/
def truthy : Option String → Bool
  | some s => !s.isEmpty
  | none => false

/-- Is the character an ASCII whitespace character (as removed by Python
`str.strip`, restricted to the characters that can occur here)? -/
def isWs (c : Char) : Bool :=
  c = ' ' || c = '\t' || c = '\n' || c = '\r'

/-- Python `str.strip`: remove leading and trailing whitespace. -/
def stripChars (cs : List Char) : List Char :=
  ((cs.dropWhile isWs).reverse.dropWhile isWs).reverse

/-- Scanner for `replaceAll`: `skip` counts pattern characters of a match
that are still to be consumed without being emitted. -/
def replaceAllAux (pat repl : List Char) : List Char → Nat → List Char
  | [], _ => []
  | _ :: rest, skip + 1 => replaceAllAux pat repl rest skip
  | c :: rest, 0 =>
    if pat.isPrefixOf (c :: rest) && !pat.isEmpty then
      repl ++ replaceAllAux pat repl rest (pat.length - 1)
    else
      c :: replaceAllAux pat repl rest 0

/-- Replace every (leftmost, non-overlapping) occurrence of `pat` by `repl`;
this is Python `re.sub` for a pattern and replacement that are both
literal text, and Python `str.replace`. -/
def replaceAll (pat repl cs : List Char) : List Char :=
  replaceAllAux pat repl cs 0

/-- String-level wrapper for `replaceAll`. -/
def replaceStr (pat repl s : String) : String :=
  ⟨replaceAll pat.data repl.data s.data⟩

/-! ## Configuration merging (`set_run_parameters`, lines 130-139)

The persisted `config.json` mapping is a partial map from keys to argparse
values; an argparse value is itself `Option String` (`none` = Python
`None`).  `vars(args)` is a list of key/value pairs iterated in order. -/

/-- A value as delivered by argparse: `none` models Python `None`. -/
abbrev CliValue := Option String

/-- The mutable config dictionary: `none` means the key is absent. -/
abbrev ConfigMap := String → Option CliValue

/-- One iteration of the merge loop of `set_run_parameters`:
`if key not in config or value is not None: config[key] = value`. -/
def merge_step (cfg : ConfigMap) (kv : String × CliValue) : ConfigMap :=
  if (cfg kv.1).isNone || kv.2.isSome then
    fun k => if k = kv.1 then some kv.2 else cfg k
  else cfg

/-- The merge loop of `set_run_parameters` over all CLI-schema keys. -/
def merge_config (persisted : ConfigMap) (cli : List (String × CliValue)) :
    ConfigMap :=
  cli.foldl merge_step persisted

/-! ## Identifier validation (lines 153-169)

`re.match(r"^...$", s)` succeeds iff the body matches the whole string,
or the whole string minus one trailing newline (CPython `$` semantics).
The validators raise `ValueError` exactly when the match fails; they are
modelled as `Bool` (`true` = validation succeeds). -/

/-- ASCII digit, the regex class `[0-9]`. -/
def isDigitChar (c : Char) : Bool := '0' ≤ c && c ≤ '9'

/-- Uppercase ASCII letter, the regex class `[A-Z]`. -/
def isUpperChar (c : Char) : Bool := 'A' ≤ c && c ≤ 'Z'

/-- The regex class `[A-Z0-9]`. -/
def isAlnumUpper (c : Char) : Bool := isUpperChar c || isDigitChar c

/-- Anchored-match closure: `^body$` matches `cs` iff `body` matches all of
`cs`, or `cs` ends in `'\n'` and `body` matches `cs` without it. -/
def dollarMatch (body : List Char → Bool) (cs : List Char) : Bool :=
  body cs ||
    (match cs.getLast? with
     | some c => if c = '\n' then body cs.dropLast else false
     | none => false)

/-- Body of the project-ID regex `P[0-9]{5}` (note: the source's regex
demands exactly five digits, though its error message says 4 or 5). -/
def projectBody (cs : List Char) : Bool :=
  match cs with
  | 'P' :: rest => rest.length == 5 && rest.all isDigitChar
  | _ => false

/-- `validate_project_id` (line 155): `true` iff no `ValueError` is raised. -/
def validate_project_id (s : String) : Bool :=
  dollarMatch projectBody s.data

/-- Consume exactly `n` characters satisfying `p`, returning the rest. -/
def takeClass (p : Char → Bool) : Nat → List Char → Option (List Char)
  | 0, cs => some cs
  | _ + 1, [] => none
  | n + 1, c :: cs => if p c then takeClass p n cs else none

/-- Bounded repetition `p{lo,hi}` followed by continuation `k`: the regex
backtracks, so the match exists iff some repetition count in `[lo, hi]`
lets the continuation succeed. -/
def repRange (p : Char → Bool) (lo hi : Nat) (k : List Char → Bool)
    (cs : List Char) : Bool :=
  (List.range (hi + 1 - lo)).any fun i =>
    match takeClass p (lo + i) cs with
    | some rest => k rest
    | none => false

/-- A single literal character followed by continuation `k`. -/
def litChar (c : Char) (k : List Char → Bool) : List Char → Bool
  | d :: cs => if d = c then k cs else false
  | [] => false

/-- Body of the flowcell regex
`[0-9]{6,8}_[A-Z]{1,2}[0-9]{5}_[0-9]{3,4}_[A-Z0-9]{9,10}(-[A-Z0-9]{5})?`. -/
def flowcellBody (cs : List Char) : Bool :=
  repRange isDigitChar 6 8
    (litChar '_'
      (repRange isUpperChar 1 2
        (repRange isDigitChar 5 5
          (litChar '_'
            (repRange isDigitChar 3 4
              (litChar '_'
                (repRange isAlnumUpper 9 10 fun rest =>
                  match rest with
                  | [] => true
                  | '-' :: rest2 => repRange isAlnumUpper 5 5 List.isEmpty rest2
                  | _ => false))))))) cs

/-- `validate_flowcell_id` (line 163): `true` iff no `ValueError` is raised. -/
def validate_flowcell_id (s : String) : Bool :=
  dollarMatch flowcellBody s.data

/-! ## Basename derivation (`set_run_parameters`, lines 142-144) -/

/-- Lines 142-144 of `set_run_parameters`: the date prefix (when
`args.timestamp` is set), then the project (when truthy), each followed by
`'_'`, with one trailing `'_'` trimmed.  `today` stands for
`datetime.now().strftime("%Y%m%d")`. -/
def basenameChars (timestamp : Bool) (today : List Char)
    (project : Option (List Char)) : List Char :=
  let pre :=
    (if timestamp then today ++ ['_'] else []) ++
      (match project with
       | some p => if p.isEmpty then [] else p ++ ['_']
       | none => [])
  if pre.getLast? = some '_' then pre.dropLast else pre

/-- String-level basename derivation. -/
def basename (timestamp : Bool) (today : String) (project : Option String) :
    String :=
  ⟨basenameChars timestamp today.data (project.map String.data)⟩

/-! ## Run configuration fields used by templating -/

/-- The optional free-text fields of the run configuration that feed the
template renderer (`config[...]` entries of the script). -/
structure RunConfig where
  project : Option String
  flowcell : Option String
  author : Option String
  email : Option String
  ngi_path : Option String
  genstat_url : Option String
  charon_url : Option String

/-! ## Placeholder substitution (`parse_line`, lines 270-284) -/

/-- One conditional substitution step of `parse_line`:
`if config[f]: line = re.sub(tok, config[f], line)`. -/
def substToken (field : Option String) (tok line : String) : String :=
  if truthy field then replaceStr tok (field.getD "") line else line

/-- `parse_line` (lines 270-284): the six substitution steps, in the
source's order (project, flowcell, author, ngi_path, genstat_url,
charon_url). -/
def parse_line (cfg : RunConfig) (line : String) : String :=
  substToken cfg.charon_url "<charon_url>"
    (substToken cfg.genstat_url "<genstat_url>"
      (substToken cfg.ngi_path "<ngi_path>"
        (substToken cfg.author "<author_name>"
          (substToken cfg.flowcell "<flowcell_id>"
            (substToken cfg.project "<project_id>" line)))))

/-! ## Markdown header (`prepare_markdown_header`, lines 214-264) -/

/-- The title line of the header (lines 231-235).  The source's `else`
branch is a plain (non-f) string, so `\x7btitle\x7d` is emitted literally
there. -/
def header_title_line (project : Option String) (title : String) : String :=
  if truthy project then
    "title: " ++ project.getD "" ++ " " ++ title ++ "\n"
  else
    "title: Bioinformatic \x7btitle\x7d\n"

/-- The author line of the header (lines 236-242): full form when author
and email are both truthy, author-only when only the author is truthy,
nothing otherwise. -/
def header_author_line (author email : Option String) : String :=
  if truthy author && truthy email then
    "author: " ++ author.getD "" ++ " <" ++ email.getD "" ++ ">\n"
  else if truthy author then
    "author: " ++ author.getD "" ++ "\n"
  else ""

/-- The fixed tail of the header (lines 243-263), parameterized by the
subtitle. -/
def header_fixed_block (subtitle : String) : String :=
  "subtitle: \x27" ++ subtitle ++ "\x27\n" ++
  "description: \x27Automatically generated checklist\x27\n" ++
  "date: today\n" ++
  "lang: en-GB\n" ++
  "format:\n" ++
  "  html:\n" ++
  "    page-layout: full\n" ++
  "    anchor-sections: true\n" ++
  "    tbl-cap-location: bottom\n" ++
  "    theme:\n" ++
  "      light: flatly\n" ++
  "      dark: darkly\n" ++
  "  commonmark:\n" ++
  "    wrap: none\n" ++
  "version: 1.0\n" ++
  "---\n"

/-- `prepare_markdown_header` (lines 214-264): `none` models the
`exit(1)` taken on an unknown template name. -/
def prepare_markdown_header (cfg : RunConfig) (template : String) :
    Option String :=
  let titles : Option (String × String) :=
    if template = "qc" then
      some ("QC and Delivery",
        "Bioinformatic Sample QC and Preparation for Data Delivery")
    else if template = "delivery" then
      some ("Delivery", "Bioinformatic Sample Delivery")
    else if template = "close" then
      some ("Close", "Bioinformatic Sample Close")
    else none
  match titles with
  | none => none
  | some (title, subtitle) =>
    some ("---\n" ++ header_title_line cfg.project title ++
      header_author_line cfg.author cfg.email ++ header_fixed_block subtitle)

/-! ## Overwrite protection (`__main__`, lines 417-432)

The output directory is modelled as the list of names of its regular
files.  The glob `f"{basename}*"` matches exactly the names that have
`basename` as a prefix. -/

/-- Character-list prefix test for the glob `f"{basename}*"`. -/
def globPre (b name : String) : Bool :=
  b.data.isPrefixOf name.data

/-- The conflicting files collected at lines 418-422. -/
def output_conflicts (b : String) (dir : List String) : List String :=
  dir.filter (globPre b)

/-- The overwrite gate plus the subsequent rendering, abstracted over the
files it would write: on conflict without `force` the run stops with exit
code 1 and the directory is untouched; otherwise the rendered outputs are
written, replacing files of the same name. -/
def run_output_stage (force : Bool) (b : String) (dir outs : List String) :
    Option Nat × List String :=
  if !force && !(output_conflicts b dir).isEmpty then
    (some 1, dir)
  else
    (none, outs ++ dir.filter (fun f => !outs.contains f))

/-! ## Markdown normalization (`generate_markdown_output`, lines 320-338) -/

/-- The per-line rewrite of the normalization loop (lines 325-332), on
character lists.  A line starting with `'<'` has `<div>` removed, is
stripped, has `</div>` removed and is stripped again; a line then starting
with `'>'` has `"> -"` rewritten to `"-"`; finally every `'☐'` becomes
`"[ ]"`. -/
def processChars (cs : List Char) : List Char :=
  let cs :=
    if cs.head? = some '<' then
      stripChars (replaceAll "</div>".data []
        (stripChars (replaceAll "<div>".data [] cs)))
    else cs
  let cs :=
    if cs.head? = some '>' then replaceAll "> -".data "-".data cs else cs
  replaceAll "☐".data "[ ]".data cs

/-- The per-line rewrite on strings. -/
def process_md_line (line : String) : String :=
  ⟨processChars line.data⟩

/-- Split a file's content the way Python file iteration does: each line
keeps its trailing `'\n'`; a last line without `'\n'` is kept as is. -/
def splitLinesKeepAux : List Char → List Char → List (List Char)
  | [], acc => if acc.isEmpty then [] else [acc.reverse]
  | '\n' :: rest, acc => (acc.reverse ++ ['\n']) :: splitLinesKeepAux rest []
  | c :: rest, acc => splitLinesKeepAux rest (c :: acc)

/-- The whole-file normalization (lines 321-338): read line by line,
rewrite each line, concatenate, write back. -/
def generate_markdown_text (content : String) : String :=
  ⟨((splitLinesKeepAux content.data []).map processChars).flatten⟩

/-! ## Cleanup (`cleanup_temporary_data`, lines 356-382)

The `*.md` deletion pass (line 367) globs `f"**/{basename}*.md"` over the
working tree; a file name matches iff it is `basename ++ mid ++ ".md"` for
some (possibly empty) `mid`. -/

/-- Does `name` match the glob `f"{b}*.md"`? -/
def md_glob_matches (b name : String) : Bool :=
  b.data.isPrefixOf name.data &&
    ".md".data.isSuffixOf (name.data.drop b.data.length)

/-- The `*.md` deletion pass: the files of the working tree that survive
(line 367-371 unlink every match). -/
def cleanup_md_pass (b : String) (cwdFiles : List String) : List String :=
  cwdFiles.filter (fun f => !md_glob_matches b f)

/-! ## Concrete configurations used as test inputs -/

/-- A run configuration with every optional field unset. -/
def emptyRunConfig : RunConfig := ⟨none, none, none, none, none, none, none⟩

/-- A run configuration with a project and an author but no `ngi_path`. -/
def exampleRunConfig : RunConfig :=
  ⟨some "P12345", none, some "Alice", none, none, none, none⟩

/-- A persisted `config.json` holding only `"author": "Alice"`. -/
def persistedAlice : ConfigMap :=
  fun k => if k = "author" then some (some "Alice") else none

/-- CLI arguments supplying `--author Bob`. -/
def cliBob : List (String × CliValue) := [("author", some "Bob")]

/-! ## Helper lemmas -/

theorem isPrefixOf_nil_eq_false {pat : List Char} (hp : pat ≠ []) :
    pat.isPrefixOf ([] : List Char) = false := by
  cases pat with
  | nil => exact absurd rfl hp
  | cons p ps => rfl

/-- Appending a character that does not occur in `pat` cannot create or
destroy a prefix occurrence of `pat`. -/
theorem isPrefixOf_append_singleton {pat : List Char} {w : Char} (hw : w ∉ pat) :
    ∀ ys : List Char, pat.isPrefixOf (ys ++ [w]) = pat.isPrefixOf ys := by
  induction pat with
  | nil => intro ys; simp [List.isPrefixOf]
  | cons p ps ih =>
    intro ys
    cases ys with
    | nil =>
      have hpw : (p == w) = false := by
        have hne : p ≠ w := fun h => hw (h ▸ List.mem_cons_self p ps)
        simp [hne]
      show ((p == w) && ps.isPrefixOf []) = (p :: ps).isPrefixOf []
      rw [hpw, isPrefixOf_nil_eq_false (List.cons_ne_nil p ps)]
      rfl
    | cons y yt =>
      show ((p == y) && ps.isPrefixOf (yt ++ [w])) = ((p == y) && ps.isPrefixOf yt)
      rw [ih (fun h => hw (List.mem_cons_of_mem p h)) yt]

/-- A trailing character that does not occur in the pattern passes through
`replaceAll` untouched, in final position. -/
theorem replaceAllAux_append_singleton {pat repl : List Char} {w : Char}
    (hp : pat ≠ []) (hw : w ∉ pat) :
    ∀ (xs : List Char) (skip : Nat), skip ≤ xs.length →
      replaceAllAux pat repl (xs ++ [w]) skip = replaceAllAux pat repl xs skip ++ [w] := by
  intro xs
  induction xs with
  | nil =>
    intro skip hskip
    have h0 : skip = 0 := Nat.le_zero.mp hskip
    subst h0
    have h1 : pat.isPrefixOf [w] = false := by
      have h := isPrefixOf_append_singleton hw []
      simpa [isPrefixOf_nil_eq_false hp] using h
    simp [replaceAllAux, h1]
  | cons c tl ih =>
    intro skip hskip
    cases skip with
    | succ s =>
      show replaceAllAux pat repl (tl ++ [w]) s = replaceAllAux pat repl tl s ++ [w]
      exact ih s (Nat.le_of_succ_le_succ hskip)
    | zero =>
      have hcond : pat.isPrefixOf (c :: tl ++ [w]) = pat.isPrefixOf (c :: tl) :=
        isPrefixOf_append_singleton hw (c :: tl)
      by_cases hpre : pat.isPrefixOf (c :: tl) = true
      · have hemp : (!pat.isEmpty) = true := by
          cases pat with
          | nil => exact absurd rfl hp
          | cons a b => rfl
        have hlen : pat.length - 1 ≤ tl.length := by
          have := (List.isPrefixOf_iff_prefix.mp hpre).length_le
          simp at this
          omega
        show (if pat.isPrefixOf (c :: (tl ++ [w])) && !pat.isEmpty then
                repl ++ replaceAllAux pat repl (tl ++ [w]) (pat.length - 1)
              else c :: replaceAllAux pat repl (tl ++ [w]) 0) = _
        rw [show c :: (tl ++ [w]) = c :: tl ++ [w] from rfl, hcond, hpre, hemp]
        simp only [Bool.and_self, if_pos]
        rw [ih (pat.length - 1) hlen]
        show repl ++ (replaceAllAux pat repl tl (pat.length - 1) ++ [w]) =
          (if pat.isPrefixOf (c :: tl) && !pat.isEmpty then
            repl ++ replaceAllAux pat repl tl (pat.length - 1)
          else c :: replaceAllAux pat repl tl 0) ++ [w]
        rw [hpre, hemp]
        simp
      · have hpre' : pat.isPrefixOf (c :: tl) = false := by
          cases h : pat.isPrefixOf (c :: tl) with
          | true => exact absurd h hpre
          | false => rfl
        show (if pat.isPrefixOf (c :: (tl ++ [w])) && !pat.isEmpty then
                repl ++ replaceAllAux pat repl (tl ++ [w]) (pat.length - 1)
              else c :: replaceAllAux pat repl (tl ++ [w]) 0) = _
        rw [show c :: (tl ++ [w]) = c :: tl ++ [w] from rfl, hcond, hpre']
        simp only [Bool.false_and, if_neg Bool.false_ne_true]
        rw [ih 0 (Nat.zero_le _)]
        show c :: (replaceAllAux pat repl tl 0 ++ [w]) =
          (if pat.isPrefixOf (c :: tl) && !pat.isEmpty then
            repl ++ replaceAllAux pat repl tl (pat.length - 1)
          else c :: replaceAllAux pat repl tl 0) ++ [w]
        rw [hpre']
        simp

/-- Every character of a `replaceAll` result comes from the replacement or
from the input. -/
theorem mem_replaceAllAux {pat repl : List Char} {a : Char} :
    ∀ (cs : List Char) (skip : Nat), a ∈ replaceAllAux pat repl cs skip → a ∈ repl ∨ a ∈ cs := by
  intro cs
  induction cs with
  | nil =>
    intro skip h
    simp [replaceAllAux] at h
  | cons c tl ih =>
    intro skip h
    cases skip with
    | succ s =>
      have h' : a ∈ replaceAllAux pat repl tl s := h
      rcases ih s h' with h1 | h2
      · exact Or.inl h1
      · exact Or.inr (List.mem_cons_of_mem c h2)
    | zero =>
      by_cases hcond : (pat.isPrefixOf (c :: tl) && !pat.isEmpty) = true
      · have h' : a ∈ repl ++ replaceAllAux pat repl tl (pat.length - 1) := by
          have heq : replaceAllAux pat repl (c :: tl) 0 =
              repl ++ replaceAllAux pat repl tl (pat.length - 1) := by
            show (if pat.isPrefixOf (c :: tl) && !pat.isEmpty then
                    repl ++ replaceAllAux pat repl tl (pat.length - 1)
                  else c :: replaceAllAux pat repl tl 0) = _
            rw [if_pos hcond]
          rw [← heq]; exact h
        rcases List.mem_append.mp h' with h1 | h2
        · exact Or.inl h1
        · rcases ih _ h2 with h3 | h4
          · exact Or.inl h3
          · exact Or.inr (List.mem_cons_of_mem c h4)
      · have h' : a ∈ c :: replaceAllAux pat repl tl 0 := by
          have heq : replaceAllAux pat repl (c :: tl) 0 = c :: replaceAllAux pat repl tl 0 := by
            show (if pat.isPrefixOf (c :: tl) && !pat.isEmpty then
                    repl ++ replaceAllAux pat repl tl (pat.length - 1)
                  else c :: replaceAllAux pat repl tl 0) = _
            rw [if_neg hcond]
          rw [← heq]; exact h
        rcases List.mem_cons.mp h' with h1 | h2
        · exact Or.inr (h1 ▸ List.mem_cons_self c tl)
        · rcases ih _ h2 with h3 | h4
          · exact Or.inl h3
          · exact Or.inr (List.mem_cons_of_mem c h4)

theorem mem_replaceAll {pat repl cs : List Char} {a : Char}
    (h : a ∈ replaceAll pat repl cs) : a ∈ repl ∨ a ∈ cs :=
  mem_replaceAllAux cs 0 h

theorem mem_stripChars {cs : List Char} {a : Char} (h : a ∈ stripChars cs) : a ∈ cs := by
  unfold stripChars at h
  rw [List.mem_reverse] at h
  have h1 := (List.dropWhile_sublist isWs).mem h
  rw [List.mem_reverse] at h1
  exact (List.dropWhile_sublist isWs).mem h1

/-- Stripping removes a trailing whitespace character that occurs nowhere
else in the line. -/
theorem not_mem_stripChars_append_of_ws {z : List Char} {w : Char}
    (hws : isWs w = true) (hz : w ∉ z) : w ∉ stripChars (z ++ [w]) := by
  intro hmem
  unfold stripChars at hmem
  rw [List.dropWhile_append] at hmem
  by_cases he : (List.dropWhile isWs z).isEmpty = true
  · rw [if_pos he] at hmem
    simp [List.dropWhile, hws] at hmem
  · rw [if_neg he] at hmem
    rw [List.mem_reverse, List.reverse_append] at hmem
    have hrw : [w].reverse ++ (List.dropWhile isWs z).reverse =
        w :: (List.dropWhile isWs z).reverse := by simp
    rw [hrw, List.dropWhile_cons, if_pos hws] at hmem
    have h1 := (List.dropWhile_sublist isWs).mem hmem
    rw [List.mem_reverse] at h1
    exact hz ((List.dropWhile_sublist isWs).mem h1)

/-- The merge loop never touches a key that is not in the CLI schema. -/
theorem merge_config_eq_of_not_mem (rest : List (String × CliValue)) (cfg : ConfigMap)
    (k : String) (h : k ∉ rest.map Prod.fst) : merge_config cfg rest k = cfg k := by
  induction rest generalizing cfg with
  | nil => rfl
  | cons kv tl ih =>
    simp only [List.map_cons, List.mem_cons, not_or] at h
    obtain ⟨hne, htl⟩ := h
    show merge_config (merge_step cfg kv) tl k = cfg k
    rw [ih _ htl]
    unfold merge_step
    split
    · simp [hne]
    · rfl

/-! ## Claim theorems -/

/-- C1: configuration precedence in `set_run_parameters`.  For every key of
the CLI argument schema (keys are distinct), the merged configuration holds
the CLI value whenever the key is absent from the persisted mapping or the
CLI supplied a non-null value, and the persisted value otherwise; in
particular a non-null CLI value always wins over a persisted value. -/
theorem C1_config_precedence (cli : List (String × CliValue)) (k : String) (v : CliValue) :
    ∀ persisted : ConfigMap, (cli.map Prod.fst).Nodup → (k, v) ∈ cli →
      merge_config persisted cli k =
        if (persisted k).isNone || v.isSome then some v else persisted k := by
  induction cli with
  | nil => intro _ _ h; cases h
  | cons kv rest ih =>
    intro persisted hnd hmem
    simp only [List.map_cons, List.nodup_cons] at hnd
    obtain ⟨hk1, hndr⟩ := hnd
    rcases List.mem_cons.mp hmem with heq | hmemr
    · subst heq
      have hstep : merge_config persisted ((k, v) :: rest) k = merge_step persisted (k, v) k := by
        show merge_config (merge_step persisted (k, v)) rest k = _
        exact merge_config_eq_of_not_mem rest _ k (by simpa using hk1)
      rw [hstep]
      by_cases hc : ((persisted k).isNone || v.isSome) = true
      · simp [merge_step, hc]
      · simp [merge_step, hc]
    · have hne : k ≠ kv.1 := by
        intro h
        apply hk1
        rw [h] at hmemr
        exact List.mem_map.mpr ⟨(kv.1, v), hmemr, rfl⟩
      have hstep : merge_step persisted kv k = persisted k := by
        unfold merge_step
        split
        · simp [hne]
        · rfl
      show merge_config (merge_step persisted kv) rest k = _
      rw [ih (merge_step persisted kv) hndr hmemr, hstep]

/-- C1 witness: a persisted `{"author": "Alice"}` merged with CLI
`--author Bob` yields `"Bob"`. -/
theorem C1_config_precedence_witness :
    merge_config persistedAlice cliBob "author" = some (some "Bob") := by
  have h := C1_config_precedence cliBob "author" (some "Bob") persistedAlice
    (by decide) (by decide)
  simpa [persistedAlice] using h

/-- C2: placeholder substitution.  A substitution step whose field is unset
leaves every line untouched; with all six fields unset `parse_line` is the
identity; and on a concrete line, set fields are substituted while the
token of the unset `ngi_path` survives literally. -/
theorem C2_placeholder_substitution :
    (∀ tok line : String, substToken none tok line = line) ∧
    (∀ (cfg : RunConfig) (line : String),
      cfg.project = none → cfg.flowcell = none → cfg.author = none →
      cfg.ngi_path = none → cfg.genstat_url = none → cfg.charon_url = none →
      parse_line cfg line = line) ∧
    parse_line exampleRunConfig "Results for <project_id> by <author_name> at <ngi_path>" =
      "Results for P12345 by Alice at <ngi_path>" := by
  refine ⟨fun _ _ => rfl, ?_, by decide⟩
  intro cfg line h1 h2 h3 h4 h5 h6
  simp [parse_line, substToken, truthy, h1, h2, h3, h4, h5, h6]

/-- C2 witness: with every field unset, a line containing `<ngi_path>`
comes out verbatim. -/
theorem C2_placeholder_substitution_witness :
    parse_line emptyRunConfig "see <ngi_path> now" = "see <ngi_path> now" :=
  C2_placeholder_substitution.2.1 emptyRunConfig "see <ngi_path> now"
    rfl rfl rfl rfl rfl rfl

/-- C3: evaluation of `validate_project_id` on the claim's inputs plus the
four-digit ID `P1234`.  The source's regex `^P[0-9]{5}$` demands exactly
five digits, so `P1234` is rejected even though the function's own error
message says four or five digits are accepted. -/
theorem C3_project_id_code_eval :
    validate_project_id "P12345" = true ∧
    validate_project_id "P1234" = false ∧
    validate_project_id "P123" = false ∧
    validate_project_id "X12345" = false := by
  decide

/-- C4 counterexample: the claim's concrete passing example
`230101_A12345_0001_AHABC123456-ABCDE` is in fact rejected: its fourth
segment `AHABC123456` has 11 characters while the pattern allows 9-10. -/
theorem C4_flowcell_claim_counterexample :
    validate_flowcell_id "230101_A12345_0001_AHABC123456-ABCDE" = false := by
  decide

/-- C4 amended: `validate_flowcell_id` accepts strings matching the fixed
anchored pattern, e.g. `230101_A12345_0001_AHABC12345-ABCDE` (fourth
segment of 10 alphanumerics), with or without the optional `-` suffix, and
rejects truncated or extended strings such as `230101_A12345`. -/
theorem C4_flowcell_amended :
    validate_flowcell_id "230101_A12345_0001_AHABC12345-ABCDE" = true ∧
    validate_flowcell_id "230101_A12345_0001_AHABC12345" = true ∧
    validate_flowcell_id "230101_A12345" = false ∧
    validate_flowcell_id "30101_A12345_0001_AHABC12345" = false ∧
    validate_flowcell_id "230101_A12345_0001_AHABC12345X" = false := by
  decide

/-- C5: basename derivation.  `project="P1000"` without timestamp gives
`"P1000"` for every date; `timestamp` alone on 2024-01-01 gives
`"20240101"`; neither gives `""`; and with both set the basename is
`date ++ "_" ++ project` (the single trailing underscore trimmed). -/
theorem C5_basename_derivation :
    (∀ today : String, basename false today (some "P1000") = "P1000") ∧
    basename true "20240101" none = "20240101" ∧
    (∀ today : String, basename false today none = "") ∧
    (∀ (today p : List Char), p ≠ [] →
      basenameChars true today (some p) = today ++ '_' :: p) := by
  refine ⟨fun _ => rfl, by decide, fun _ => rfl, ?_⟩
  intro today p hp
  unfold basenameChars
  have hpe : p.isEmpty = false := by
    cases p with
    | nil => exact absurd rfl hp
    | cons a b => rfl
  simp only [if_true, hpe, Bool.false_eq_true, if_false]
  have h2 : (today ++ ['_']) ++ (p ++ ['_']) = (today ++ '_' :: p) ++ ['_'] := by simp
  rw [h2, List.getLast?_concat, if_pos rfl, List.dropLast_concat]

/-- C5 witness: both timestamp and project set. -/
theorem C5_basename_derivation_witness :
    basenameChars true "20240101".data (some "P1000".data) =
      "20240101".data ++ '_' :: "P1000".data :=
  C5_basename_derivation.2.2.2 "20240101".data "P1000".data (by decide)

/-- C6: evaluation of the cleanup `*.md` pass.  With the empty basename the
glob `f"{basename}*.md"` degenerates and matches the unrelated `other.md`,
which is therefore deleted; with a non-empty basename only the
prefix-matching file is deleted and `other.md` survives. -/
theorem C6_cleanup_scoping_code_eval :
    md_glob_matches "" "other.md" = true ∧
    cleanup_md_pass "" ["other.md"] = [] ∧
    cleanup_md_pass "P1000" ["other.md", "P1000_x.md"] = ["other.md"] := by
  decide

/-- C7: overwrite protection.  Without `--force`, a file in the output
directory whose name has the run's basename as a prefix makes the run stop
with exit code 1 and the directory untouched (nothing written); with
`--force` the run proceeds and its outputs are written. -/
theorem C7_overwrite_protection :
    (∀ (b : String) (dir outs : List String) (f : String),
      f ∈ dir → globPre b f = true →
      run_output_stage false b dir outs = (some 1, dir)) ∧
    (∀ (b : String) (dir outs : List String),
      (run_output_stage true b dir outs).1 = none ∧
      ∀ o ∈ outs, o ∈ (run_output_stage true b dir outs).2) := by
  constructor
  · intro b dir outs f hf hp
    unfold run_output_stage
    have hne : (output_conflicts b dir).isEmpty = false := by
      have hmem : f ∈ output_conflicts b dir := List.mem_filter.mpr ⟨hf, hp⟩
      cases hcc : output_conflicts b dir with
      | nil => rw [hcc] at hmem; cases hmem
      | cons a l => rfl
    rw [hne]
    rfl
  · intro b dir outs
    refine ⟨rfl, ?_⟩
    intro o ho
    show o ∈ outs ++ dir.filter (fun f => !outs.contains f)
    exact List.mem_append_left _ ho

/-- C7 witness: a pre-existing `P1000_QC.md` without `--force` stops the
run with exit 1 and leaves the directory unchanged. -/
theorem C7_overwrite_protection_witness :
    run_output_stage false "P1000" ["P1000_QC.md"] ["P1000_QC.md"] =
      (some 1, ["P1000_QC.md"]) :=
  C7_overwrite_protection.1 "P1000" ["P1000_QC.md"] ["P1000_QC.md"] "P1000_QC.md"
    (by decide) (by decide)

/-- C8: markdown normalization.  The line `"<div>  text</div>"` becomes
`"text"`; every line beginning with `'>'` has `"> -"` rewritten to `"-"`
and `'☐'` rewritten to `"[ ]"`; every other line not beginning with `'<'`
gets exactly the `'☐'` rewrite; `"> - item"` and a `'☐'` line evaluate as
the claim states. -/
theorem C8_markdown_normalization :
    process_md_line "<div>  text</div>" = "text" ∧
    (∀ line : String, line.data.head? = some '>' →
      process_md_line line =
        ⟨replaceAll "☐".data "[ ]".data (replaceAll "> -".data "-".data line.data)⟩) ∧
    (∀ line : String, line.data.head? ≠ some '<' → line.data.head? ≠ some '>' →
      process_md_line line = ⟨replaceAll "☐".data "[ ]".data line.data⟩) ∧
    process_md_line "> - item\n" = "- item\n" ∧
    process_md_line "- ☐ task\n" = "- [ ] task\n" := by
  refine ⟨by decide, ?_, ?_, by decide, by decide⟩
  · intro line h
    have hne : line.data.head? ≠ some '<' := by rw [h]; decide
    simp [process_md_line, processChars, h, hne]
  · intro line h1 h2
    simp [process_md_line, processChars, h1, h2]

/-- C8 witness: the `'>'`-line case at a concrete line. -/
theorem C8_markdown_normalization_witness :
    process_md_line "> hello" =
      ⟨replaceAll "☐".data "[ ]".data (replaceAll "> -".data "-".data "> hello".data)⟩ :=
  C8_markdown_normalization.2.1 "> hello" (by decide)

/-- C9: empty-string values behave as absent.  For each of the six
substitutable fields, the empty string and `None` give the same
`parse_line` output; an empty-string author or email gives the same header
as an absent one; concretely an empty author omits the author line and an
empty email reduces it to the author-only form. -/
theorem C9_empty_string_as_absent :
    (∀ (fl au em ng ge ch : Option String) (line : String),
      parse_line ⟨some "", fl, au, em, ng, ge, ch⟩ line =
        parse_line ⟨none, fl, au, em, ng, ge, ch⟩ line) ∧
    (∀ (pr au em ng ge ch : Option String) (line : String),
      parse_line ⟨pr, some "", au, em, ng, ge, ch⟩ line =
        parse_line ⟨pr, none, au, em, ng, ge, ch⟩ line) ∧
    (∀ (pr fl em ng ge ch : Option String) (line : String),
      parse_line ⟨pr, fl, some "", em, ng, ge, ch⟩ line =
        parse_line ⟨pr, fl, none, em, ng, ge, ch⟩ line) ∧
    (∀ (pr fl au em ge ch : Option String) (line : String),
      parse_line ⟨pr, fl, au, em, some "", ge, ch⟩ line =
        parse_line ⟨pr, fl, au, em, none, ge, ch⟩ line) ∧
    (∀ (pr fl au em ng ch : Option String) (line : String),
      parse_line ⟨pr, fl, au, em, ng, some "", ch⟩ line =
        parse_line ⟨pr, fl, au, em, ng, none, ch⟩ line) ∧
    (∀ (pr fl au em ng ge : Option String) (line : String),
      parse_line ⟨pr, fl, au, em, ng, ge, some ""⟩ line =
        parse_line ⟨pr, fl, au, em, ng, ge, none⟩ line) ∧
    (∀ (pr fl em ng ge ch : Option String) (t : String),
      prepare_markdown_header ⟨pr, fl, some "", em, ng, ge, ch⟩ t =
        prepare_markdown_header ⟨pr, fl, none, em, ng, ge, ch⟩ t) ∧
    (∀ (pr fl au ng ge ch : Option String) (t : String),
      prepare_markdown_header ⟨pr, fl, au, some "", ng, ge, ch⟩ t =
        prepare_markdown_header ⟨pr, fl, au, none, ng, ge, ch⟩ t) ∧
    header_author_line (some "") (some "a@b.se") = "" ∧
    header_author_line (some "Alice") (some "") = "author: Alice\n" := by
  refine ⟨fun _ _ _ _ _ _ _ => rfl, fun _ _ _ _ _ _ _ => rfl,
    fun _ _ _ _ _ _ _ => rfl, fun _ _ _ _ _ _ _ => rfl,
    fun _ _ _ _ _ _ _ => rfl, fun _ _ _ _ _ _ _ => rfl,
    fun _ _ _ _ _ _ _ => rfl, fun _ _ _ _ _ _ _ => rfl, by decide, by decide⟩

/-- C10: a line that begins with `'<'` loses its trailing newline in the
normalization pass (the strip removes it and nothing reintroduces one), so
in the rewritten file it is concatenated with the following line, as the
concrete whole-file evaluation shows. -/
theorem C10_lt_line_loses_newline :
    (∀ body : List Char, body.head? = some '<' → '\n' ∉ body →
      '\n' ∉ processChars (body ++ ['\n'])) ∧
    generate_markdown_text "<div>a</div>\nnext\n" = "anext\n" := by
  refine ⟨?_, by decide⟩
  intro body hhd hnl
  obtain ⟨bs, rfl⟩ : ∃ bs, body = '<' :: bs := by
    cases body with
    | nil => cases hhd
    | cons b bs' =>
      have hb : b = '<' := by injection hhd
      exact ⟨bs', by rw [hb]⟩
  have hstep : replaceAll "<div>".data [] (('<' :: bs) ++ ['\n']) =
      replaceAll "<div>".data [] ('<' :: bs) ++ ['\n'] :=
    replaceAllAux_append_singleton (by decide) (by decide) _ 0 (Nat.zero_le _)
  have hz : '\n' ∉ replaceAll "<div>".data [] ('<' :: bs) := by
    intro hm
    rcases mem_replaceAll hm with h | h
    · cases h
    · exact hnl h
  have h1 : '\n' ∉ stripChars (replaceAll "<div>".data [] ('<' :: bs) ++ ['\n']) :=
    not_mem_stripChars_append_of_ws (by decide) hz
  have h2 : '\n' ∉ replaceAll "</div>".data []
      (stripChars (replaceAll "<div>".data [] ('<' :: bs) ++ ['\n'])) := by
    intro hm
    rcases mem_replaceAll hm with h | h
    · cases h
    · exact h1 h
  have h3 : '\n' ∉ stripChars (replaceAll "</div>".data []
      (stripChars (replaceAll "<div>".data [] ('<' :: bs) ++ ['\n']))) :=
    fun hm => h2 (mem_stripChars hm)
  have h4 : '\n' ∉ (if (stripChars (replaceAll "</div>".data []
        (stripChars (replaceAll "<div>".data [] ('<' :: bs) ++ ['\n'])))).head? = some '>' then
      replaceAll "> -".data "-".data (stripChars (replaceAll "</div>".data []
        (stripChars (replaceAll "<div>".data [] ('<' :: bs) ++ ['\n']))))
    else stripChars (replaceAll "</div>".data []
        (stripChars (replaceAll "<div>".data [] ('<' :: bs) ++ ['\n'])))) := by
    split
    · intro hm
      rcases mem_replaceAll hm with h | h
      · simp at h
      · exact h3 h
    · exact h3
  have hrw : processChars (('<' :: bs) ++ ['\n']) =
      replaceAll "☐".data "[ ]".data (if (stripChars (replaceAll "</div>".data []
          (stripChars (replaceAll "<div>".data [] ('<' :: bs) ++ ['\n'])))).head? = some '>' then
        replaceAll "> -".data "-".data (stripChars (replaceAll "</div>".data []
          (stripChars (replaceAll "<div>".data [] ('<' :: bs) ++ ['\n']))))
      else stripChars (replaceAll "</div>".data []
          (stripChars (replaceAll "<div>".data [] ('<' :: bs) ++ ['\n'])))) := by
    unfold processChars
    rw [if_pos (show (('<' :: bs) ++ ['\n']).head? = some '<' from rfl), hstep]
  rw [hrw]
  intro hm
  rcases mem_replaceAll hm with h | h
  · simp at h
  · exact h4 h

/-- C10 witness: a concrete `'<'`-line with its newline. -/
theorem C10_lt_line_loses_newline_witness :
    '\n' ∉ processChars ("<div>x</div>".data ++ ['\n']) :=
  C10_lt_line_loses_newline.1 "<div>x</div>".data (by decide) (by decide)

end Checklists
